import Mathlib

/-!
Shallow embedding of `src/scripts/pbf_to_tiles.py` (OSM road-speed-limit
tile preprocessor).  Strings from the Python code are modelled as
`List Char`; Python `None` becomes `Option`; Python float values arising
in `parse_speed` are decimal-digit strings, so they are modelled exactly
as scaled naturals `(mant, e)` standing for `mant / 10 ^ e`, with
`decValQ` giving the rational value and `pyRound` the rational-level
round-half-to-even of Python's `round`.  External collaborators (the
osmium reader, `mercantile.tiles`, `json.dumps`/`json.loads`, the
filesystem) are modelled as parameters or as explicit state.
-/

namespace PbfToTiles

/-! ## Character/string helpers mirroring Python `str` operations -/

/-- Python `str.strip()`: drop whitespace from both ends. -/
def stripL (l : List Char) : List Char :=
  ((l.dropWhile Char.isWhitespace).reverse.dropWhile Char.isWhitespace).reverse

/-- Python `str.lower()` (ASCII case). -/
def lowerL (l : List Char) : List Char :=
  l.map Char.toLower

/-- Does `s` start with `pat`? (Python `str.startswith`.) -/
def startsW : List Char → List Char → Bool
  | [], _ => true
  | _ :: _, [] => false
  | p :: ps, c :: cs => p == c && startsW ps cs

/-- Python `pat in s` substring test. -/
def containsSub (pat : List Char) : List Char → Bool
  | [] => startsW pat []
  | c :: rest => startsW pat (c :: rest) || containsSub pat rest

/-- `"mph"` -/
def mphChars : List Char := ['m', 'p', 'h']

/-- `"uk"` -/
def ukChars : List Char := ['u', 'k']

/-! ## Exact decimal values and Python `round` -/

/-- Value of a digit string as a natural number. -/
def digitsVal (l : List Char) : ℕ :=
  l.foldl (fun a c => a * 10 + (c.toNat - 48)) 0

/-- A decimal value `(mant, e)` stands for the rational `mant / 10 ^ e`.
This represents a Python float parsed from a digit/dot string exactly. -/
def decValQ (p : ℕ × ℕ) : ℚ :=
  (p.1 : ℚ) / (10 : ℚ) ^ p.2

/-- Python `round(q)` on one argument: round half to even (ℚ level). -/
def pyRound (q : ℚ) : ℤ :=
  if q - ⌊q⌋ < 1 / 2 then ⌊q⌋
  else if 1 / 2 < q - ⌊q⌋ then ⌊q⌋ + 1
  else if ⌊q⌋ % 2 = 0 then ⌊q⌋ else ⌊q⌋ + 1

/-- Round-half-to-even of the fraction `n / d` (`d > 0`), computed with
natural division: the executable form of `pyRound` on nonnegative
fractions. -/
def rhe (n d : ℕ) : ℕ :=
  if 2 * (n % d) < d then n / d
  else if d < 2 * (n % d) then n / d + 1
  else if (n / d) % 2 = 0 then n / d else n / d + 1

/-! ## `parse_speed` (src/scripts/pbf_to_tiles.py lines 59-90) -/

/-- The digit-run extraction loop of `parse_speed`: collect digit/dot
characters; once some have been collected, the first other character
terminates the scan.  `acc` is the collected run. -/
def extractNumAux : List Char → List Char → List Char
  | [], acc => acc
  | c :: cs, acc =>
    if c.isDigit || c == '.' then extractNumAux cs (acc ++ [c])
    else if acc ≠ [] then acc
    else extractNumAux cs acc

/-- The numeric run extracted from the lowercased/stripped input. -/
def extractNum (r : List Char) : List Char :=
  extractNumAux r []

/-- Python `float(num)` restricted to strings of digits and dots (the
only strings the extraction loop can produce): fails when there is more
than one dot or no digit at all; otherwise the value is
`integer part . fractional part`, returned exactly as `(mant, e)`
standing for `mant / 10 ^ e`. -/
def parsePyFloat (num : List Char) : Option (ℕ × ℕ) :=
  if 1 < num.count '.' then none
  else if !(num.any Char.isDigit) then none
  else
    let ip := num.takeWhile (fun c => c ≠ '.')
    let fp := (num.dropWhile (fun c => c ≠ '.')).drop 1
    some (digitsVal ip * 10 ^ fp.length + digitsVal fp, fp.length)

/-- `kmh_to_mph(v) = int(round(v * 0.621371))` (lines 59-60), on the
exact decimal representation: `(mant / 10^e) * 0.621371 =
(mant * 621371) / 10^(e+6)`. -/
def kmh_to_mph (p : ℕ × ℕ) : ℕ :=
  rhe (p.1 * 621371) (10 ^ (p.2 + 6))

/-- `int(round(v))` on the exact decimal representation. -/
def roundDec (p : ℕ × ℕ) : ℕ :=
  rhe p.1 (10 ^ p.2)

/-- `parse_speed(raw)` (lines 63-90).  `country` is the module-level
`COUNTRY` (the CLI country argument, already lowercased); `raw` is the
`maxspeed` tag value, `none` when the tag is absent (Python `None`).
An absent or empty string is falsy (`if not raw: return -1`). -/
def parse_speed (country : List Char) (raw : Option (List Char)) : ℤ :=
  match raw with
  | none => -1
  | some s =>
    if s = [] then -1
    else
      let r := stripL (lowerL s)
      let num := extractNum r
      if num = [] then -1
      else
        match parsePyFloat num with
        | none => -1
        | some v =>
          if containsSub mphChars r || country == ukChars then
            Int.ofNat (roundDec v)
          else Int.ofNat (kmh_to_mph v)

example : parse_speed ['f', 'r'] (some ['5', '0']) = 31 := by decide
example : parse_speed ['f', 'r'] (some ['3', '0', ' ', 'm', 'p', 'h']) = 30 := by decide
example : parse_speed ['u', 'k'] (some ['5', '0']) = 50 := by decide
example : parse_speed ['f', 'r'] (some ['3', '0', ' ', 'k', 'm', 'p', 'h']) = 30 := by decide
example : parse_speed ['f', 'r'] (some ['n', 'o', 'n', 'e']) = -1 := by decide
example : parse_speed ['f', 'r'] (some ['1', '.', '2', '.', '3']) = -1 := by decide
example : parse_speed ['f', 'r'] (some ['5', '0', ';', '6', '0']) = 31 := by decide
example : parse_speed ['f', 'r'] none = -1 := by decide
example : rhe 5 2 = 2 := by decide
example : rhe 7 2 = 4 := by decide

/-! ## Bridge: the executable rounding equals `pyRound` on `ℚ` -/

theorem rhe_eq_pyRound (n d : ℕ) (hd : 0 < d) :
    (rhe n d : ℤ) = pyRound ((n : ℚ) / (d : ℚ)) := by
  have hd0 : (0 : ℚ) < (d : ℚ) := by exact_mod_cast hd
  have h2 : (0 : ℚ) < 2 := by norm_num
  unfold pyRound rhe
  set k := n / d with hk
  set r := n % d with hr
  have hrd : r < d := by rw [hr]; exact Nat.mod_lt n hd
  have hq : (n : ℚ) / (d : ℚ) = (k : ℚ) + (r : ℚ) / (d : ℚ) := by
    have hn : (n : ℚ) = (k : ℚ) * (d : ℚ) + (r : ℚ) := by
      exact_mod_cast (by rw [hk, hr]; exact (Nat.div_add_mod' n d).symm : n = k * d + r)
    rw [hn, add_div, mul_div_cancel_right₀ _ (ne_of_gt hd0)]
  have hfloor : ⌊(n : ℚ) / (d : ℚ)⌋ = (k : ℤ) := by
    rw [hq, Int.floor_eq_iff]
    have hnn : (0 : ℚ) ≤ (r : ℚ) / (d : ℚ) := by positivity
    have hlt1 : (r : ℚ) / (d : ℚ) < 1 := by
      rw [div_lt_one hd0]; exact_mod_cast hrd
    constructor
    · push_cast; linarith
    · push_cast; linarith
  have hfrac : (n : ℚ) / (d : ℚ) - ((k : ℤ) : ℚ) = (r : ℚ) / (d : ℚ) := by
    rw [hq]; push_cast; ring
  rw [hfloor, hfrac]
  by_cases h1 : 2 * r < d
  · have hc : (r : ℚ) * 2 < 1 * (d : ℚ) := by
      have hcc : ((2 * r : ℕ) : ℚ) < (d : ℚ) := by exact_mod_cast h1
      push_cast at hcc; linarith
    rw [if_pos h1, if_pos ((div_lt_div_iff₀ hd0 h2).mpr hc)]
  · have hge : ¬ ((r : ℚ) / (d : ℚ) < 1 / 2) := by
      rw [div_lt_div_iff₀ hd0 h2]
      intro hc
      have hcc : (d : ℚ) ≤ ((2 * r : ℕ) : ℚ) := by exact_mod_cast Nat.le_of_not_lt h1
      push_cast at hcc; linarith
    rw [if_neg h1, if_neg hge]
    by_cases hgt : d < 2 * r
    · have hc : (1 : ℚ) * (d : ℚ) < (r : ℚ) * 2 := by
        have hcc : (d : ℚ) < ((2 * r : ℕ) : ℚ) := by exact_mod_cast hgt
        push_cast at hcc; linarith
      rw [if_pos hgt, if_pos ((div_lt_div_iff₀ h2 hd0).mpr hc)]
      push_cast; ring
    · have hhalf : (r : ℚ) / (d : ℚ) = 1 / 2 := by
        rw [div_eq_div_iff (ne_of_gt hd0) (by norm_num : (2 : ℚ) ≠ 0)]
        have hcc : ((2 * r : ℕ) : ℚ) = (d : ℚ) := by exact_mod_cast (by rw [hr]; omega : 2 * r = d)
        push_cast at hcc; linarith
      have hngt : ¬ ((1 : ℚ) / 2 < (r : ℚ) / (d : ℚ)) := by
        rw [hhalf]
        exact lt_irrefl _
      have hmod : ((k : ℤ) % 2 = 0) ↔ (k % 2 = 0) := by rw [hk]; omega
      rw [if_neg hgt, if_neg hngt]
      by_cases hp : k % 2 = 0
      · rw [if_pos hp, if_pos (hmod.mpr hp)]
      · rw [if_neg hp, if_neg (fun hc => hp (hmod.mp hc))]
        push_cast; ring

theorem roundDec_eq (p : ℕ × ℕ) :
    (Int.ofNat (roundDec p)) = pyRound (decValQ p) := by
  have h10 : (0 : ℕ) < 10 ^ p.2 := pow_pos (by norm_num) _
  show ((roundDec p : ℕ) : ℤ) = _
  rw [roundDec, rhe_eq_pyRound _ _ h10]
  congr 1
  rw [decValQ]
  push_cast
  ring

theorem kmh_to_mph_eq (p : ℕ × ℕ) :
    (Int.ofNat (kmh_to_mph p)) = pyRound (decValQ p * (621371 / 1000000)) := by
  have h10 : (0 : ℕ) < 10 ^ (p.2 + 6) := pow_pos (by norm_num) _
  show ((kmh_to_mph p : ℕ) : ℤ) = _
  rw [kmh_to_mph, rhe_eq_pyRound _ _ h10]
  congr 1
  rw [decValQ]
  push_cast
  rw [pow_add, div_mul_div_comm]
  norm_num

/-- Unfolding equation of `parse_speed` on a present string. -/
theorem parse_speed_some (country s : List Char) :
    parse_speed country (some s) =
      if s = [] then -1
      else if extractNum (stripL (lowerL s)) = [] then -1
      else
        match parsePyFloat (extractNum (stripL (lowerL s))) with
        | none => -1
        | some v =>
          if containsSub mphChars (stripL (lowerL s)) || country == ukChars then
            Int.ofNat (roundDec v)
          else Int.ofNat (kmh_to_mph v) := rfl

/-- When the numeric extraction of `parse_speed` succeeds, the result is
the rounded value (mph path) or the rounded converted value (km/h path),
selected by the mph-substring test or the `uk` country hint. -/
theorem parse_speed_eq (country s : List Char) (v : ℕ × ℕ)
    (h : parsePyFloat (extractNum (stripL (lowerL s))) = some v) :
    parse_speed country (some s) =
      if containsSub mphChars (stripL (lowerL s)) || country == ukChars then
        pyRound (decValQ v)
      else pyRound (decValQ v * (621371 / 1000000)) := by
  have hs : s ≠ [] := by
    intro he
    rw [he] at h
    have hne : (none : Option (ℕ × ℕ)) = some v := h
    cases hne
  have hnum : extractNum (stripL (lowerL s)) ≠ [] := by
    intro he
    rw [he] at h
    have hne : (none : Option (ℕ × ℕ)) = some v := h
    cases hne
  rw [parse_speed_some, if_neg hs, if_neg hnum, h]
  show (if containsSub mphChars (stripL (lowerL s)) || country == ukChars then
          Int.ofNat (roundDec v)
        else Int.ofNat (kmh_to_mph v)) = _
  split_ifs with hcond
  · exact roundDec_eq v
  · exact kmh_to_mph_eq v

/-- `"none"` -/
def noneChars : List Char := ['n', 'o', 'n', 'e']

/-- Claim C6: for a raw speed-limit string whose leading numeric run
parses to the value `v`: with an mph marker in the string or the `uk`
locale hint the result is `round(v)`; otherwise the value is taken as
km/h and the result is `round(v * 0.621371)`. -/
theorem C6_normalizer_units (country s : List Char) (v : ℕ × ℕ)
    (h : parsePyFloat (extractNum (stripL (lowerL s))) = some v) :
    parse_speed country (some s) =
      if containsSub mphChars (stripL (lowerL s)) || country == ukChars then
        pyRound (decValQ v)
      else pyRound (decValQ v * (621371 / 1000000)) :=
  parse_speed_eq country s v h

/-- Witness for C6: `"50"` under the `fr` locale hint converts to mph. -/
theorem C6_witness :
    parse_speed ['f', 'r'] (some ['5', '0']) =
      if containsSub mphChars (stripL (lowerL ['5', '0'])) || ['f', 'r'] == ukChars then
        pyRound (decValQ (50, 0))
      else pyRound (decValQ (50, 0) * (621371 / 1000000)) :=
  C6_normalizer_units ['f', 'r'] ['5', '0'] (50, 0) (by decide)

/-! ## The float-overflow error path of `parse_speed`

CPython's `float(num)` does not raise on a digit run whose decimal value
exceeds the double range: `strtod` overflows silently to `inf`
(`float('9'*309) == inf`).  The subsequent `int(round(v))` and
`kmh_to_mph(v)` sit outside the `try`, and `round(inf)` raises
`OverflowError` to the caller.  `parse_speedE` refines `parse_speed`
with this error path; finite values keep the exact-decimal reading. -/

/-- Does the decimal value `mant / 10 ^ e` overflow `float`?  Under
round-to-nearest-even, `strtod` returns `inf` exactly when the value is
at least `2 ^ 1024 - 2 ^ 970` (the midpoint above the largest finite
double `2 ^ 1024 - 2 ^ 971`). -/
def floatOverflow (p : ℕ × ℕ) : Bool :=
  (2 ^ 1024 - 2 ^ 970) * 10 ^ p.2 ≤ p.1

/-- `parse_speed(raw)` with the CPython overflow path made explicit:
`Except.error ()` is the `OverflowError` escaping to the caller when
`float(num)` returned `inf` and `round(inf)` raised outside the `try`
(on both the mph branch and the km/h branch, since `inf * 0.621371`
is again `inf`).  On every non-overflowing input it behaves as
`parse_speed` (see `parse_speedE_agrees`). -/
def parse_speedE (country : List Char) (raw : Option (List Char)) :
    Except Unit ℤ :=
  match raw with
  | none => Except.ok (-1)
  | some s =>
    if s = [] then Except.ok (-1)
    else
      let r := stripL (lowerL s)
      let num := extractNum r
      if num = [] then Except.ok (-1)
      else
        match parsePyFloat num with
        | none => Except.ok (-1)
        | some v =>
          if floatOverflow v then Except.error ()
          else if containsSub mphChars r || country == ukChars then
            Except.ok (Int.ofNat (roundDec v))
          else Except.ok (Int.ofNat (kmh_to_mph v))

/-- `'9' * 309`: its value `10 ^ 309 - 1` exceeds the double range. -/
def nines309 : List Char := List.replicate 309 '9'

/-- Unfolding equation of `parse_speedE` on a present string. -/
theorem parse_speedE_some (country s : List Char) :
    parse_speedE country (some s) =
      if s = [] then Except.ok (-1)
      else if extractNum (stripL (lowerL s)) = [] then Except.ok (-1)
      else
        match parsePyFloat (extractNum (stripL (lowerL s))) with
        | none => Except.ok (-1)
        | some v =>
          if floatOverflow v then Except.error ()
          else if containsSub mphChars (stripL (lowerL s)) || country == ukChars then
            Except.ok (Int.ofNat (roundDec v))
          else Except.ok (Int.ofNat (kmh_to_mph v)) := rfl

/-- Reduction of `parse_speedE` once the numeric extraction succeeds. -/
theorem parse_speedE_float (country t : List Char) (v : ℕ × ℕ)
    (hv : parsePyFloat (extractNum (stripL (lowerL t))) = some v) :
    parse_speedE country (some t) =
      if floatOverflow v then Except.error ()
      else if containsSub mphChars (stripL (lowerL t)) || country == ukChars then
        Except.ok (Int.ofNat (roundDec v))
      else Except.ok (Int.ofNat (kmh_to_mph v)) := by
  have ht : t ≠ [] := by
    intro he
    rw [he] at hv
    have hne : (none : Option (ℕ × ℕ)) = some v := hv
    cases hne
  have hnum : extractNum (stripL (lowerL t)) ≠ [] := by
    intro he
    rw [he] at hv
    have hne : (none : Option (ℕ × ℕ)) = some v := hv
    cases hne
  rw [parse_speedE_some, if_neg ht, if_neg hnum, hv]

/-- On inputs whose value does not overflow the double range, the
refined normalizer agrees with the pure model `parse_speed`. -/
theorem parse_speedE_agrees (country s : List Char)
    (h : ∀ v, parsePyFloat (extractNum (stripL (lowerL s))) = some v →
      floatOverflow v = false) :
    parse_speedE country (some s) = Except.ok (parse_speed country (some s)) := by
  rw [parse_speedE_some, parse_speed_some]
  by_cases hs : s = []
  · rw [if_pos hs, if_pos hs]
  · rw [if_neg hs, if_neg hs]
    by_cases hnum : extractNum (stripL (lowerL s)) = []
    · rw [if_pos hnum, if_pos hnum]
    · rw [if_neg hnum, if_neg hnum]
      cases hv : parsePyFloat (extractNum (stripL (lowerL s))) with
      | none => rfl
      | some v =>
        show (if floatOverflow v then Except.error ()
              else if containsSub mphChars (stripL (lowerL s)) || country == ukChars then
                Except.ok (Int.ofNat (roundDec v))
              else Except.ok (Int.ofNat (kmh_to_mph v))) =
          Except.ok (if containsSub mphChars (stripL (lowerL s)) || country == ukChars then
            Int.ofNat (roundDec v) else Int.ofNat (kmh_to_mph v))
        rw [h v hv]
        show (if containsSub mphChars (stripL (lowerL s)) || country == ukChars then
                Except.ok (Int.ofNat (roundDec v))
              else Except.ok (Int.ofNat (kmh_to_mph v))) = _
        split_ifs <;> rfl

set_option maxRecDepth 8000 in
example : parse_speedE ['f', 'r'] (some ['5', '0']) = Except.ok 31 := by rfl
example : parse_speedE ['f', 'r'] (some ['1', '.', '2', '.', '3']) = Except.ok (-1) := by rfl
set_option maxRecDepth 8000 in
example : floatOverflow (10 ^ 309 - 1, 0) = true := by decide
set_option maxRecDepth 8000 in
example : floatOverflow (10 ^ 308 - 1, 0) = false := by decide

/-- Claim C8 (amended): the normalizer returns the sentinel -1 for a
null input, the empty string, the literal `"none"`, and any input whose
numeric extraction fails (no digits, or malformed numeric text caught by
the `try`), and otherwise a nonnegative integer — but it is not total:
when the extracted digit run's value reaches the double overflow cutoff,
`float` returns `inf` silently and the uncaught `round(inf)` raises
`OverflowError` to the caller; every input falls into exactly these
outcomes (sentinel, nonnegative integer, or raise). -/
theorem C8_normalizer_total_except_overflow (country s : List Char)
    (h : parsePyFloat (extractNum (stripL (lowerL s))) = none) :
    parse_speedE country none = Except.ok (-1) ∧
    parse_speedE country (some []) = Except.ok (-1) ∧
    parse_speedE country (some noneChars) = Except.ok (-1) ∧
    parse_speedE country (some s) = Except.ok (-1) ∧
    (∀ raw, parse_speedE country raw = Except.error () ∨
      parse_speedE country raw = Except.ok (-1) ∨
      ∃ n : ℕ, parse_speedE country raw = Except.ok (Int.ofNat n)) ∧
    (∀ t v, parsePyFloat (extractNum (stripL (lowerL t))) = some v →
      floatOverflow v = true →
      parse_speedE country (some t) = Except.error ()) := by
  refine ⟨rfl, rfl, rfl, ?_, ?_, ?_⟩
  · rw [parse_speedE_some]
    by_cases hs : s = []
    · rw [if_pos hs]
    · rw [if_neg hs]
      by_cases hnum : extractNum (stripL (lowerL s)) = []
      · rw [if_pos hnum]
      · rw [if_neg hnum, h]
  · intro raw
    match raw with
    | none => exact Or.inr (Or.inl rfl)
    | some t =>
      cases hv : parsePyFloat (extractNum (stripL (lowerL t))) with
      | none =>
        refine Or.inr (Or.inl ?_)
        rw [parse_speedE_some]
        by_cases ht : t = []
        · rw [if_pos ht]
        · rw [if_neg ht]
          by_cases hnum : extractNum (stripL (lowerL t)) = []
          · rw [if_pos hnum]
          · rw [if_neg hnum, hv]
      | some v =>
        rw [parse_speedE_float country t v hv]
        split_ifs
        · exact Or.inl rfl
        · exact Or.inr (Or.inr ⟨roundDec v, rfl⟩)
        · exact Or.inr (Or.inr ⟨kmh_to_mph v, rfl⟩)
  · intro t v hv hovf
    rw [parse_speedE_float country t v hv, if_pos hovf]

/-- Witness for C8 (amended): the malformed numeric text `"1.2.3"` is
caught and maps to the sentinel. -/
theorem C8_witness :
    parse_speedE ['f', 'r'] (some ['1', '.', '2', '.', '3']) = Except.ok (-1) :=
  (C8_normalizer_total_except_overflow ['f', 'r'] ['1', '.', '2', '.', '3']
    (by decide)).2.2.2.1

set_option maxRecDepth 8000 in
/-- Counterexample to C8 as stated: the 309-nines digit run makes the
normalizer raise to the caller — no integer (and no -1 sentinel) is
returned for this input string. -/
theorem C8_counterexample :
    parse_speedE ['f', 'r'] (some nines309) = Except.error () ∧
    ∀ z : ℤ, parse_speedE ['f', 'r'] (some nines309) ≠ Except.ok z := by
  have h : parse_speedE ['f', 'r'] (some nines309) = Except.error () := by rfl
  refine ⟨h, ?_⟩
  intro z hz
  rw [h] at hz
  cases hz

/-- Claim C10: any input whose lowercased form contains the substring
`"mph"` anywhere (also `"30 kmph"`) is returned as `round(v)` with no
km/h conversion, for every country hint. -/
theorem C10_mph_substring_anywhere (country s : List Char) (v : ℕ × ℕ)
    (h : parsePyFloat (extractNum (stripL (lowerL s))) = some v)
    (hm : containsSub mphChars (stripL (lowerL s)) = true) :
    parse_speed country (some s) = pyRound (decValQ v) := by
  rw [parse_speed_eq country s v h, hm]
  simp

/-- Witness for C10: `"30 kmph"` under the `fr` hint stays 30 (no
conversion), although `"mph"` is not a standalone marker there. -/
theorem C10_witness :
    parse_speed ['f', 'r'] (some ['3', '0', ' ', 'k', 'm', 'p', 'h']) =
      pyRound (decValQ (30, 0)) :=
  C10_mph_substring_anywhere ['f', 'r'] ['3', '0', ' ', 'k', 'm', 'p', 'h'] (30, 0)
    (by decide) (by decide)

/-! ## Records, Features and `Handler.way` (lines 141-203) -/

/-- A node of an OSM way as the handler sees it: a validity flag
(`n.location.valid()`) and the coordinates. -/
structure Node where
  valid : Bool
  lon : ℚ
  lat : ℚ
deriving DecidableEq

/-- One input Record (`w` in `Handler.way`). -/
structure Way where
  id : ℕ
  tags : List (List Char × List Char)
  nodes : List Node
deriving DecidableEq

/-- The feature document built at lines 175-184. -/
structure Feature where
  id : ℕ
  highway : Option (List Char)
  maxspeed_raw : Option (List Char)
  maxspeed_mph : ℤ
  coordinates : List (ℚ × ℚ)
deriving DecidableEq

/-- Python `tags.get(key)` on an association list (first match). -/
def tagGet : List (List Char × List Char) → List Char → Option (List Char)
  | [], _ => none
  | (k, val) :: rest, key => if k = key then some val else tagGet rest key

/-- `"highway"` -/
def highwayChars : List Char := ['h', 'i', 'g', 'h', 'w', 'a', 'y']

/-- `"maxspeed"` -/
def maxspeedChars : List Char := ['m', 'a', 'x', 's', 'p', 'e', 'e', 'd']

/-- The `coords` list built by the node loop (lines 157-170): the valid
nodes' coordinates in original order. -/
def validCoords (w : Way) : List (ℚ × ℚ) :=
  (w.nodes.filter (fun n => n.valid)).map (fun n => (n.lon, n.lat))

/-- The running bounding box of the node loop. -/
structure BBox where
  minx : ℚ
  maxx : ℚ
  miny : ℚ
  maxy : ℚ
deriving DecidableEq

/-- The bounds built by the node loop (lines 151-170), starting from the
sentinels `999, -999, 999, -999` and folding min/max over valid nodes. -/
def wayBounds (w : Way) : BBox :=
  w.nodes.foldl
    (fun b n =>
      if n.valid then
        { minx := min b.minx n.lon, maxx := max b.maxx n.lon,
          miny := min b.miny n.lat, maxy := max b.maxy n.lat }
      else b)
    ⟨999, -999, 999, -999⟩

/-- `85.05112878` -/
def mercLimit : ℚ := 8505112878 / 100000000

/-- `clamp_lat` (lines 93-99). -/
def clamp_lat (lat : ℚ) : ℚ :=
  if mercLimit < lat then mercLimit
  else if lat < -mercLimit then -mercLimit
  else lat

/-- A tile key `(z, x, y)`. -/
abbrev TileKey := ℕ × ℕ × ℕ

/-- `get_tile_list_for_bounds` (lines 102-106): clamp the latitudes and
delegate to the external `mercantile.tiles`, passed as `tilesFn`. -/
def get_tile_list_for_bounds (tilesFn : ℚ → ℚ → ℚ → ℚ → List TileKey)
    (minx miny maxx maxy : ℚ) : List TileKey :=
  tilesFn minx (clamp_lat miny) maxx (clamp_lat maxy)

/-- The Record-to-Feature projection inside `Handler.way` (lines
147-184): reject when the `highway` tag is absent or `len(w.nodes) < 2`,
or when fewer than 2 valid coordinates remain; otherwise build the
feature from the valid coordinates and the parsed speed. -/
def wayFeature (country : List Char) (w : Way) : Option Feature :=
  if tagGet w.tags highwayChars = none ∨ w.nodes.length < 2 then none
  else if (validCoords w).length < 2 then none
  else some
    { id := w.id
      highway := tagGet w.tags highwayChars
      maxspeed_raw := tagGet w.tags maxspeedChars
      maxspeed_mph := parse_speed country (tagGet w.tags maxspeedChars)
      coordinates := validCoords w }

/-- The in-memory tile buckets: tile key to buffered serialized lines,
in insertion order (the Python dict `buffers`). -/
abbrev Buffers := List (TileKey × List (List Char))

/-- Lines 191-193: `if key not in buffers: buffers[key] = [];
buffers[key].append(js)`. -/
def bufInsert (bufs : Buffers) (k : TileKey) (js : List Char) : Buffers :=
  match bufs with
  | [] => [(k, [js])]
  | (k1, l) :: rest =>
    if k1 = k then (k1, l ++ [js]) :: rest else (k1, l) :: bufInsert rest k js

/-- Dictionary lookup on the buckets. -/
def bufLookup : Buffers → TileKey → Option (List (List Char))
  | [], _ => none
  | (k1, l) :: rest, k => if k1 = k then some l else bufLookup rest k

/-- The most recently appended line of a bucket. -/
def lastAppended (bufs : Buffers) (k : TileKey) : Option (List Char) :=
  match bufLookup bufs k with
  | none => none
  | some l => l.getLast?

/-- The tile keys a way is binned into (line 189). -/
def wayKeys (tilesFn : ℚ → ℚ → ℚ → ℚ → List TileKey) (w : Way) : List TileKey :=
  get_tile_list_for_bounds tilesFn (wayBounds w).minx (wayBounds w).miny
    (wayBounds w).maxx (wayBounds w).maxy

/-- The buffer-updating part of `Handler.way` (lines 147-193): build the
feature, serialize it once (`js = json.dumps(feature) + "\n"`, with
`json.dumps` as the external parameter `dumps`), then append the same
`js` under every intersecting tile key. -/
def wayInsert (dumps : Feature → List Char)
    (tilesFn : ℚ → ℚ → ℚ → ℚ → List TileKey) (country : List Char)
    (bufs : Buffers) (w : Way) : Buffers :=
  match wayFeature country w with
  | none => bufs
  | some f =>
    let js := dumps f ++ ['\n']
    (wayKeys tilesFn w).foldl (fun b k => bufInsert b k js) bufs

theorem wayInsert_some (dumps : Feature → List Char)
    (tilesFn : ℚ → ℚ → ℚ → ℚ → List TileKey) (country : List Char)
    (bufs : Buffers) (w : Way) (f : Feature)
    (hf : wayFeature country w = some f) :
    wayInsert dumps tilesFn country bufs w =
      (wayKeys tilesFn w).foldl (fun b k => bufInsert b k (dumps f ++ ['\n'])) bufs := by
  unfold wayInsert
  rw [hf]

theorem bufLookup_bufInsert_ne (bufs : Buffers) (k k1 : TileKey)
    (js : List Char) (hne : k1 ≠ k) :
    bufLookup (bufInsert bufs k1 js) k = bufLookup bufs k := by
  induction bufs with
  | nil => simp [bufInsert, bufLookup, hne]
  | cons hd tl ih =>
    obtain ⟨k2, l⟩ := hd
    by_cases h : k2 = k1
    · subst h
      simp [bufInsert, bufLookup, hne]
    · by_cases h2 : k2 = k
      · simp [bufInsert, bufLookup, h, h2, Ne.symm hne]
      · simp [bufInsert, bufLookup, h, h2, Ne.symm hne, ih]

theorem lastAppended_bufInsert (bufs : Buffers) (k : TileKey) (js : List Char) :
    lastAppended (bufInsert bufs k js) k = some js := by
  induction bufs with
  | nil => simp [bufInsert, bufLookup, lastAppended]
  | cons hd tl ih =>
    obtain ⟨k2, l⟩ := hd
    by_cases h : k2 = k
    · subst h
      simp [bufInsert, bufLookup, lastAppended, List.getLast?_concat]
    · simpa [bufInsert, bufLookup, lastAppended, h] using ih

theorem lastAppended_congr (b b2 : Buffers) (k : TileKey)
    (h : bufLookup b k = bufLookup b2 k) :
    lastAppended b k = lastAppended b2 k := by
  unfold lastAppended
  rw [h]

theorem foldl_bufInsert_not_mem (keys : List TileKey) (bufs : Buffers)
    (js : List Char) (k : TileKey) (hk : k ∉ keys) :
    bufLookup (keys.foldl (fun b k2 => bufInsert b k2 js) bufs) k = bufLookup bufs k := by
  induction keys generalizing bufs with
  | nil => rfl
  | cons k1 rest ih =>
    simp only [List.foldl_cons]
    rw [ih _ (fun hmem => hk (List.mem_cons_of_mem _ hmem)),
      bufLookup_bufInsert_ne _ _ _ _
        (fun he => hk (by rw [he]; exact List.mem_cons_self _ _))]

theorem foldl_bufInsert_last (keys : List TileKey) (bufs : Buffers)
    (js : List Char) (k : TileKey) (hk : k ∈ keys) :
    lastAppended (keys.foldl (fun b k2 => bufInsert b k2 js) bufs) k = some js := by
  induction keys generalizing bufs with
  | nil => cases hk
  | cons k1 rest ih =>
    simp only [List.foldl_cons]
    by_cases hmem : k ∈ rest
    · exact ih _ hmem
    · have hk1 : k1 = k := by
        cases hk with
        | head => rfl
        | tail _ h => exact absurd h hmem
      subst hk1
      rw [lastAppended_congr _ (bufInsert bufs k1 js) k1
        (foldl_bufInsert_not_mem rest _ js k1 hmem)]
      exact lastAppended_bufInsert bufs k1 js

/-- Claim C7: a Record with no `highway` tag or fewer than 2 valid
coordinate points yields no Feature and contributes nothing to any
buffer; a produced Feature's geometry is exactly the valid points in
original order. -/
theorem C7_projector_rejects (country : List Char) (w : Way) :
    (tagGet w.tags highwayChars = none ∨ (validCoords w).length < 2 →
      wayFeature country w = none) ∧
    (∀ f, wayFeature country w = some f → f.coordinates = validCoords w) ∧
    (∀ dumps tilesFn bufs, wayFeature country w = none →
      wayInsert dumps tilesFn country bufs w = bufs) := by
  refine ⟨?_, ?_, ?_⟩
  · intro h
    unfold wayFeature
    split_ifs with h1 h2
    · rfl
    · rfl
    · exfalso
      cases h with
      | inl hhw => exact h1 (Or.inl hhw)
      | inr hlen => exact h2 hlen
  · intro f hf
    unfold wayFeature at hf
    split_ifs at hf
    injection hf with hf
    rw [← hf]
  · intro dumps tilesFn bufs hnone
    unfold wayInsert
    rw [hnone]

def nodeA : Node := { valid := true, lon := 0, lat := 0 }

def nodeB : Node := { valid := true, lon := 1, lat := 1 }

def wNoHighway : Way := { id := 5, tags := [], nodes := [nodeA, nodeB] }

def wGood : Way :=
  { id := 1, tags := [(highwayChars, ['r', 'e', 's'])], nodes := [nodeA, nodeB] }

def fGood : Feature :=
  { id := 1, highway := some ['r', 'e', 's'], maxspeed_raw := none,
    maxspeed_mph := -1, coordinates := [(0, 0), (1, 1)] }

/-- Witness for C7: a way without the `highway` tag is rejected, and an
accepted way's geometry is its valid coordinates. -/
theorem C7_witness :
    wayFeature ['f', 'r'] wNoHighway = none ∧
    fGood.coordinates = validCoords wGood :=
  ⟨(C7_projector_rejects ['f', 'r'] wNoHighway).1 (Or.inl rfl),
   (C7_projector_rejects ['f', 'r'] wGood).2.1 fGood rfl⟩

/-- Claim C9: the serialized payload is computed once per Record before
tile assignment, so the line appended under every intersecting tile key
is identical (byte-for-byte the same `js`). -/
theorem C9_payload_identical (dumps : Feature → List Char)
    (tilesFn : ℚ → ℚ → ℚ → ℚ → List TileKey) (country : List Char)
    (bufs : Buffers) (w : Way) (f : Feature) (k1 k2 : TileKey)
    (hf : wayFeature country w = some f)
    (h1 : k1 ∈ wayKeys tilesFn w) (h2 : k2 ∈ wayKeys tilesFn w) :
    lastAppended (wayInsert dumps tilesFn country bufs w) k1 =
      some (dumps f ++ ['\n']) ∧
    lastAppended (wayInsert dumps tilesFn country bufs w) k2 =
      lastAppended (wayInsert dumps tilesFn country bufs w) k1 := by
  rw [wayInsert_some dumps tilesFn country bufs w f hf]
  refine ⟨foldl_bufInsert_last _ _ _ _ h1, ?_⟩
  rw [foldl_bufInsert_last _ _ _ _ h1, foldl_bufInsert_last _ _ _ _ h2]

/-- A concrete stand-in for `mercantile.tiles` returning two tiles. -/
def tiles2 : ℚ → ℚ → ℚ → ℚ → List TileKey :=
  fun _ _ _ _ => [(13, 0, 0), (13, 1, 0)]

/-- A concrete stand-in for `json.dumps`. -/
def dumps0 : Feature → List Char := fun _ => ['f']

/-- Witness for C9: a way binned into two tiles gets the same payload
under both keys. -/
theorem C9_witness :
    lastAppended (wayInsert dumps0 tiles2 ['f', 'r'] [] wGood) (13, 0, 0) =
      some (dumps0 fGood ++ ['\n']) ∧
    lastAppended (wayInsert dumps0 tiles2 ['f', 'r'] [] wGood) (13, 1, 0) =
      lastAppended (wayInsert dumps0 tiles2 ['f', 'r'] [] wGood) (13, 0, 0) :=
  C9_payload_identical dumps0 tiles2 ['f', 'r'] [] wGood fGood (13, 0, 0) (13, 1, 0)
    rfl (by decide) (by decide)

/-! ## The spill buffer: `flush_buffers` (lines 109-138) and the
module-level state `buffers`, `open_files`, and the per-tile fragment
files in `tmpdir`. -/

/-- The mutable module-level state touched by `flush_buffers`:
`buffers` (tile key → buffered lines), `open_files` (keys with an open
gzip append handle, in opening order), and the fragment store (tile key
→ lines appended so far to `tmpdir/z_x_y.ndjson.gz`). -/
structure SpillState where
  buffers : Buffers
  openFiles : List TileKey
  fragments : List (TileKey × List (List Char))
deriving DecidableEq

/-- `sum(len(v) for v in buffers.values())` (line 122). -/
def totalLines (bufs : Buffers) : ℕ :=
  (bufs.map (fun kl => kl.2.length)).sum

/-- Append lines to one tile's fragment file. -/
def fragAppend (frags : List (TileKey × List (List Char))) (k : TileKey)
    (lines : List (List Char)) : List (TileKey × List (List Char)) :=
  match frags with
  | [] => [(k, lines)]
  | (k1, l) :: rest =>
    if k1 = k then (k1, l ++ lines) :: rest else (k1, l) :: fragAppend rest k lines

/-- One iteration of the flush loop (lines 126-136): look up the key's
handle, open it once if absent (`open_files[key] = f`, never closed
during the run), then `f.writelines(lines)`. -/
def spillOne (st : SpillState) (kl : TileKey × List (List Char)) : SpillState :=
  let st1 :=
    if kl.1 ∈ st.openFiles then st
    else { st with openFiles := st.openFiles ++ [kl.1] }
  { st1 with fragments := fragAppend st1.fragments kl.1 kl.2 }

/-- `flush_buffers(force)` (lines 109-138): return early when no
buffers, or when not forced and the total buffered line count is below
the `--flush` threshold; otherwise spill every bucket and clear the
buffer dict. -/
def flush_buffers (flushThr : ℕ) (force : Bool) (s : SpillState) : SpillState :=
  if s.buffers = [] then s
  else if force = false ∧ totalLines s.buffers < flushThr then s
  else
    let s2 := s.buffers.foldl spillOne s
    { s2 with buffers := [] }

theorem spillOne_buffers (st : SpillState) (kl : TileKey × List (List Char)) :
    (spillOne st kl).buffers = st.buffers := by
  unfold spillOne
  split_ifs <;> rfl

theorem foldl_spillOne_buffers (l : List (TileKey × List (List Char)))
    (st : SpillState) : (l.foldl spillOne st).buffers = st.buffers := by
  induction l generalizing st with
  | nil => rfl
  | cons hd tl ih => rw [List.foldl_cons, ih, spillOne_buffers]

theorem foldl_spillOne_open (l : List (TileKey × List (List Char)))
    (st : SpillState) (hnd : (l.map Prod.fst).Nodup)
    (hdisj : ∀ k ∈ l.map Prod.fst, k ∉ st.openFiles) :
    (l.foldl spillOne st).openFiles = st.openFiles ++ l.map Prod.fst := by
  induction l generalizing st with
  | nil => simp
  | cons hd tl ih =>
    obtain ⟨k, lines⟩ := hd
    simp only [List.foldl_cons, List.map_cons]
    have hknotin : k ∉ st.openFiles := hdisj k (by simp)
    have hopen : (spillOne st (k, lines)).openFiles = st.openFiles ++ [k] := by
      unfold spillOne
      rw [if_neg hknotin]
    have hnd2 : (tl.map Prod.fst).Nodup := (List.nodup_cons.mp hnd).2
    have hdisj2 : ∀ k2 ∈ tl.map Prod.fst, k2 ∉ (spillOne st (k, lines)).openFiles := by
      intro k2 hk2
      rw [hopen]
      simp only [List.mem_append, List.mem_singleton]
      rintro (hc | hc)
      · exact hdisj k2 (List.mem_cons_of_mem _ hk2) hc
      · exact (List.nodup_cons.mp hnd).1 (hc ▸ hk2)
    rw [ih _ hnd2 hdisj2, hopen, List.append_assoc, List.singleton_append]

/-- Claim C2 (amended): a forced spill opens a fresh handle for every
buffered tile key not already open and closes none: afterwards the open
handles are the previous ones plus one per flushed key.  Each key's
handle is opened on its first spill and kept open for the whole run, so
the number of simultaneously open handles equals the number of distinct
tile keys spilled so far. -/
theorem C2_open_handles_accumulate (flushThr : ℕ) (s : SpillState)
    (hne : s.buffers ≠ [])
    (hnd : (s.buffers.map Prod.fst).Nodup)
    (hdisj : ∀ k ∈ s.buffers.map Prod.fst, k ∉ s.openFiles) :
    (flush_buffers flushThr true s).openFiles =
      s.openFiles ++ s.buffers.map Prod.fst := by
  unfold flush_buffers
  rw [if_neg hne, if_neg (by simp)]
  exact foldl_spillOne_open s.buffers s hnd hdisj

/-- A generic run state with `n` distinct buffered tile keys and no open
handle yet. -/
def mkNKeys (n : ℕ) : SpillState :=
  { buffers := (List.range n).map (fun i => ((13, i, 0), [['x']])),
    openFiles := [], fragments := [] }

/-- Witness for C2 (amended): a concrete forced spill over one key. -/
theorem C2_witness :
    (flush_buffers 5000 true (mkNKeys 1)).openFiles =
      (mkNKeys 1).openFiles ++ (mkNKeys 1).buffers.map Prod.fst :=
  C2_open_handles_accumulate 5000 (mkNKeys 1) (by decide) (by decide) (by decide)

/-- Counterexample to C2 as stated: no constant bounds the number of
simultaneously open fragment handles over all runs — a run with `n`
distinct tile keys holds `n` open handles after its spill. -/
theorem C2_counterexample :
    ¬ ∃ c : ℕ, ∀ n : ℕ,
      ((flush_buffers 5000 true (mkNKeys n)).openFiles).length ≤ c := by
  rintro ⟨c, hc⟩
  have h := hc (c + 1)
  have hkeys : (mkNKeys (c + 1)).buffers.map Prod.fst
      = (List.range (c + 1)).map (fun i => ((13 : ℕ), i, (0 : ℕ))) := by
    simp [mkNKeys, List.map_map]
  have hinj : Function.Injective (fun i : ℕ => ((13 : ℕ), i, (0 : ℕ))) := by
    intro a b hab
    simpa using hab
  have hnd : ((mkNKeys (c + 1)).buffers.map Prod.fst).Nodup := by
    rw [hkeys]
    exact (List.nodup_range _).map hinj
  have hdisj : ∀ k ∈ (mkNKeys (c + 1)).buffers.map Prod.fst,
      k ∉ (mkNKeys (c + 1)).openFiles := by
    intro k _
    simp [mkNKeys]
  have hne : (mkNKeys (c + 1)).buffers ≠ [] := by
    simp [mkNKeys]
  have hopen : (flush_buffers 5000 true (mkNKeys (c + 1))).openFiles
      = (mkNKeys (c + 1)).openFiles ++ (mkNKeys (c + 1)).buffers.map Prod.fst := by
    unfold flush_buffers
    rw [if_neg hne, if_neg (by simp)]
    exact foldl_spillOne_open _ _ hnd hdisj
  rw [hopen, hkeys] at h
  simp [mkNKeys] at h

/-! ## The driver loop: `Handler.way` counters and the periodic flush
(lines 141-206) -/

/-- The handler-visible run state: the spill state plus the module-level
counters `ways_seen` and `ways_written`. -/
structure DriverState where
  spill : SpillState
  ways_seen : ℕ
  ways_written : ℕ
deriving DecidableEq

/-- One `Handler.way(w)` call (lines 142-202): count the way, reject or
build-and-bin the feature, and — only for accepted ways whose running
`ways_seen` count is a multiple of 2000 — call
`flush_buffers(force=False)`. -/
def processWay (dumps : Feature → List Char)
    (tilesFn : ℚ → ℚ → ℚ → ℚ → List TileKey) (country : List Char)
    (flushThr : ℕ) (st : DriverState) (w : Way) : DriverState :=
  let seen := st.ways_seen + 1
  match wayFeature country w with
  | none => { st with ways_seen := seen }
  | some _ =>
    let st1 : DriverState :=
      { spill := { st.spill with
          buffers := wayInsert dumps tilesFn country st.spill.buffers w },
        ways_seen := seen,
        ways_written := st.ways_written + 1 }
    if seen % 2000 = 0 then
      { st1 with spill := flush_buffers flushThr false st1.spill }
    else st1

/-- The state at interpreter start. -/
def initState : DriverState :=
  { spill := { buffers := [], openFiles := [], fragments := [] },
    ways_seen := 0, ways_written := 0 }

/-- The streaming part of the run (line 206): apply the handler to each
way of the input in order. -/
def driverRun (dumps : Feature → List Char)
    (tilesFn : ℚ → ℚ → ℚ → ℚ → List TileKey) (country : List Char)
    (flushThr : ℕ) (ways : List Way) : DriverState :=
  ways.foldl (processWay dumps tilesFn country flushThr) initState

theorem processWay_some (dumps : Feature → List Char)
    (tilesFn : ℚ → ℚ → ℚ → ℚ → List TileKey) (country : List Char)
    (flushThr : ℕ) (st : DriverState) (w : Way) (f : Feature)
    (hf : wayFeature country w = some f) :
    processWay dumps tilesFn country flushThr st w =
      (if (st.ways_seen + 1) % 2000 = 0 then
        { spill := flush_buffers flushThr false
            { st.spill with
              buffers := wayInsert dumps tilesFn country st.spill.buffers w },
          ways_seen := st.ways_seen + 1,
          ways_written := st.ways_written + 1 }
      else
        { spill := { st.spill with
            buffers := wayInsert dumps tilesFn country st.spill.buffers w },
          ways_seen := st.ways_seen + 1,
          ways_written := st.ways_written + 1 }) := by
  unfold processWay
  rw [hf]

/-- After any non-forced flush call the buffered total is below the
threshold (a spill empties every bucket; otherwise the total was already
below it). -/
theorem flush_post (flushThr : ℕ) (s : SpillState) (h : 1 ≤ flushThr) :
    totalLines (flush_buffers flushThr false s).buffers < flushThr := by
  unfold flush_buffers
  split_ifs with h1 h2
  · rw [h1]
    simp [totalLines]
    omega
  · exact h2.2
  · show totalLines [] < flushThr
    simp [totalLines]
    omega

/-- Claim C4 (amended): the spill condition is only evaluated after an
accepted Record whose cumulative `ways_seen` count is a multiple of
2000; immediately after such a check the buffered total is below the
flush threshold.  Between checks the total is unbounded (see the
counterexample), and there is no distinct-bucket-count trigger. -/
theorem C4_flush_only_at_check_points (dumps : Feature → List Char)
    (tilesFn : ℚ → ℚ → ℚ → ℚ → List TileKey) (country : List Char)
    (flushThr : ℕ) (st : DriverState) (w : Way) (f : Feature)
    (hthr : 1 ≤ flushThr)
    (hf : wayFeature country w = some f)
    (hmod : (st.ways_seen + 1) % 2000 = 0) :
    totalLines (processWay dumps tilesFn country flushThr st w).spill.buffers
      < flushThr := by
  rw [processWay_some dumps tilesFn country flushThr st w f hf, if_pos hmod]
  exact flush_post flushThr _ hthr

/-- A concrete stand-in for `mercantile.tiles` returning one tile. -/
def tiles1 : ℚ → ℚ → ℚ → ℚ → List TileKey :=
  fun _ _ _ _ => [(13, 0, 0)]

/-- A driver state 1999 accepted ways into the stream. -/
def st1999 : DriverState :=
  { spill := { buffers := [], openFiles := [], fragments := [] },
    ways_seen := 1999, ways_written := 1999 }

/-- Witness for C4 (amended): way number 2000 triggers the check. -/
theorem C4_witness :
    totalLines (processWay dumps0 tiles1 ['f', 'r'] 1 st1999 wGood).spill.buffers
      < 1 :=
  C4_flush_only_at_check_points dumps0 tiles1 ['f', 'r'] 1 st1999 wGood fGood
    (by decide) rfl (by decide)

/-- Counterexample to C4 as stated: with flush threshold 1, three
accepted single-tile Records leave 3 buffered lines — the threshold is
exceeded by two Records' worth because no spill check runs before way
number 2000. -/
theorem C4_counterexample :
    totalLines (driverRun dumps0 tiles1 ['f', 'r'] 1
      [wGood, wGood, wGood]).spill.buffers = 3 ∧ 1 + 1 < 3 :=
  ⟨rfl, by norm_num⟩

/-! ## Failure semantics of the spill pass (claim C5): `flush_buffers`
with a fallible fragment append.  The loop body (lines 126-136) runs
with no exception handler, so a raised append error propagates out of
`flush_buffers` before later keys are written and before
`buffers.clear()` runs. -/

/-- The flush loop with a fallible append: `failing k = true` means the
open/write for tile `k` raises.  On a raise, the loop stops and the
partial state (earlier keys appended, buffers untouched) escapes with
the exception. -/
def spillLoopE (failing : TileKey → Bool) :
    List (TileKey × List (List Char)) → SpillState →
      Except (TileKey × SpillState) SpillState
  | [], st => Except.ok st
  | (k, ls) :: rest, st =>
    if failing k then Except.error (k, st)
    else spillLoopE failing rest (spillOne st (k, ls))

/-- `flush_buffers` with the fallible append. -/
def flush_buffersE (failing : TileKey → Bool) (flushThr : ℕ) (force : Bool)
    (s : SpillState) : Except (TileKey × SpillState) SpillState :=
  if s.buffers = [] then Except.ok s
  else if force = false ∧ totalLines s.buffers < flushThr then Except.ok s
  else
    match spillLoopE failing s.buffers s with
    | Except.error e => Except.error e
    | Except.ok s2 => Except.ok { s2 with buffers := [] }

theorem spillLoopE_ok (l : List (TileKey × List (List Char))) (st : SpillState) :
    spillLoopE (fun _ => false) l st = Except.ok (l.foldl spillOne st) := by
  induction l generalizing st with
  | nil => rfl
  | cons hd tl ih =>
    obtain ⟨k, ls⟩ := hd
    simp [spillLoopE, ih]

/-- With no failure the fallible flush coincides with `flush_buffers`. -/
theorem flush_buffersE_no_failure (flushThr : ℕ) (force : Bool) (s : SpillState) :
    flush_buffersE (fun _ => false) flushThr force s =
      Except.ok (flush_buffers flushThr force s) := by
  unfold flush_buffersE flush_buffers
  split_ifs <;> simp [spillLoopE_ok]

theorem spillLoopE_error (failing : TileKey → Bool)
    (pre : List (TileKey × List (List Char))) (k : TileKey)
    (ls : List (List Char)) (post : List (TileKey × List (List Char)))
    (st : SpillState)
    (hpre : ∀ kl ∈ pre, failing kl.1 = false) (hk : failing k = true) :
    spillLoopE failing (pre ++ (k, ls) :: post) st =
      Except.error (k, pre.foldl spillOne st) := by
  induction pre generalizing st with
  | nil =>
    simp [spillLoopE, hk]
  | cons hd tl ih =>
    obtain ⟨k2, ls2⟩ := hd
    have h2 : failing k2 = false := hpre (k2, ls2) (by simp)
    simp only [List.cons_append, spillLoopE, h2, List.foldl_cons]
    simp only [Bool.false_eq_true, if_false]
    exact ih _ (fun kl hkl => hpre kl (List.mem_cons_of_mem _ hkl))

/-- Claim C5 (amended): an append failure for one tile key aborts the
whole spill pass — keys earlier in iteration order are already written,
the failing and all later keys are not, the buffers are not cleared, and
the exception escapes `flush_buffers` to the driver. -/
theorem C5_spill_failure_aborts (failing : TileKey → Bool) (flushThr : ℕ)
    (s : SpillState) (pre post : List (TileKey × List (List Char)))
    (k : TileKey) (ls : List (List Char))
    (hb : s.buffers = pre ++ (k, ls) :: post)
    (hpre : ∀ kl ∈ pre, failing kl.1 = false)
    (hk : failing k = true) :
    flush_buffersE failing flushThr true s =
      Except.error (k, pre.foldl spillOne s) ∧
    (pre.foldl spillOne s).buffers = s.buffers := by
  constructor
  · unfold flush_buffersE
    rw [if_neg (by rw [hb]; simp), if_neg (by simp), hb,
      spillLoopE_error failing pre k ls post s hpre hk]
  · exact foldl_spillOne_buffers pre s

/-- The key whose fragment append fails in the C5 scenario. -/
def failing1 : TileKey → Bool := fun k => k == (13, 0, 0)

/-- A spill state buffering two tile keys, the first of which fails. -/
def sC5 : SpillState :=
  { buffers := [((13, 0, 0), [['a']]), ((13, 1, 0), [['b']])],
    openFiles := [], fragments := [] }

/-- Witness for C5 (amended): the concrete two-key spill with the first
key failing. -/
theorem C5_witness :
    flush_buffersE failing1 5000 true sC5 =
      Except.error ((13, 0, 0), ([] : List (TileKey × List (List Char))).foldl spillOne sC5) ∧
    (([] : List (TileKey × List (List Char))).foldl spillOne sC5).buffers = sC5.buffers :=
  C5_spill_failure_aborts failing1 5000 sC5 [] [((13, 1, 0), [['b']])]
    (13, 0, 0) [['a']] rfl (by simp) (by decide)

/-- Counterexample to C5 as stated: the failure on the first key escapes
`flush_buffers` as an exception (crashing the run) with the second key's
pending data unwritten and the buffers untouched — the error is not
isolated to the failing key. -/
theorem C5_counterexample :
    flush_buffersE failing1 5000 true sC5 = Except.error ((13, 0, 0), sC5) ∧
    sC5.fragments = [] ∧ sC5.buffers ≠ [] := by
  refine ⟨rfl, rfl, ?_⟩
  intro h
  cases h

/-! ## Finalization (lines 218-247): fragments to Tile Documents -/

/-- The per-tile finalization read loop (lines 230-234): every nonblank
line of the tile's concatenated fragment data is decoded
(`json.loads` is the external parameter `loads`) and appended — there is
no deduplication of any kind. -/
def finalizeFeatures (loads : List Char → Feature) (lines : List (List Char)) :
    List Feature :=
  (lines.filter (fun l => !(stripL l).isEmpty)).map loads

/-- The final write (lines 239-240): `open(path, "w")` truncates, so any
pre-existing Tile Document at the path is discarded unread and replaced
by the new FeatureCollection. -/
def writeTileDoc (existing : Option (List Feature)) (fc : List Feature) :
    Option (List Feature) :=
  some fc

/-- Finalize one tile: decode the fragment lines and overwrite the
output location. -/
def finalizeTile (loads : List Char → Feature) (existing : Option (List Feature))
    (lines : List (List Char)) : Option (List Feature) :=
  writeTileDoc existing (finalizeFeatures loads lines)

theorem length_filter_map_eq {α β : Type} (f : α → β) (p : β → Bool)
    (l : List α) :
    ((l.map f).filter p).length = (l.filter (fun a => p (f a))).length := by
  induction l with
  | nil => rfl
  | cons a t ih =>
    by_cases h : p (f a) = true
    · simp [List.filter_cons, h, ih]
    · simp [List.filter_cons, h, ih]

/-- Claim C1 (amended): finalization performs no deduplication — the
Tile Document holds one Feature per nonblank fragment line in read
order, so an identifier occurring on `n` nonblank lines appears `n`
times. -/
theorem C1_no_dedup (loads : List Char → Feature) (lines : List (List Char))
    (i : ℕ) :
    ((finalizeFeatures loads lines).filter (fun f => f.id == i)).length =
      ((lines.filter (fun l => !(stripL l).isEmpty)).filter
        (fun l => (loads l).id == i)).length := by
  unfold finalizeFeatures
  rw [length_filter_map_eq]

def lineA : List Char := ['a']

def lineB : List Char := ['b']

def f7a : Feature :=
  { id := 7, highway := none, maxspeed_raw := none,
    maxspeed_mph := -1, coordinates := [(0, 0), (1, 1)] }

def f7b : Feature :=
  { id := 7, highway := some ['x'], maxspeed_raw := none,
    maxspeed_mph := -1, coordinates := [(2, 2), (3, 3)] }

def loadsC1 : List Char → Feature := fun l => if l = lineA then f7a else f7b

/-- Counterexample to C1 as stated: two fragment lines carrying
identifier 7 both appear in the finalized Tile Document. -/
theorem C1_counterexample :
    finalizeFeatures loadsC1 [lineA, lineB] = [f7a, f7b] ∧
    f7a.id = 7 ∧ f7b.id = 7 ∧ f7a ≠ f7b := by
  refine ⟨rfl, rfl, rfl, ?_⟩
  intro h
  simp [f7a, f7b] at h

def g1 : Feature :=
  { id := 1, highway := none, maxspeed_raw := none,
    maxspeed_mph := -1, coordinates := [(0, 0), (1, 1)] }

def g2 : Feature :=
  { id := 2, highway := none, maxspeed_raw := none,
    maxspeed_mph := -1, coordinates := [(0, 0), (1, 1)] }

def f2n : Feature :=
  { id := 2, highway := some ['n'], maxspeed_raw := none,
    maxspeed_mph := -1, coordinates := [(5, 5), (6, 6)] }

def f3n : Feature :=
  { id := 3, highway := some ['n'], maxspeed_raw := none,
    maxspeed_mph := -1, coordinates := [(7, 7), (8, 8)] }

def lineC : List Char := ['c']

def lineD : List Char := ['d']

def loadsC3 : List Char → Feature := fun l => if l = lineC then f2n else f3n

/-- Counterexample to C3 as stated: with an existing document holding
identifiers {1, 2} and fragments holding {2, 3}, the written document is
exactly the new {2, 3} — the existing id-1 Feature is removed and the
id-2 Feature is the new one, not the existing one. -/
theorem C3_counterexample :
    finalizeTile loadsC3 (some [g1, g2]) [lineC, lineD] = some [f2n, f3n] ∧
    g1.id = 1 ∧ f2n.id = 2 ∧ f3n.id = 3 ∧ f2n ≠ g2 ∧
    ∀ f ∈ [f2n, f3n], f.id ≠ 1 := by
  refine ⟨rfl, rfl, rfl, rfl, ?_, ?_⟩
  · intro h
    simp [f2n, g2] at h
  · intro f hf
    rcases List.mem_cons.mp hf with h | h
    · subst h; decide
    · rcases List.mem_cons.mp h with h2 | h2
      · subst h2; decide
      · cases h2

/-- Claim C3 (amended): finalization overwrites — the output is
independent of any pre-existing Tile Document at the path and equals
exactly the Features decoded from this run's fragments. -/
theorem C3_overwrite (loads : List Char → Feature)
    (existing : Option (List Feature)) (lines : List (List Char)) :
    finalizeTile loads existing lines = finalizeTile loads none lines ∧
    finalizeTile loads existing lines = some (finalizeFeatures loads lines) :=
  ⟨rfl, rfl⟩

end PbfToTiles
